import Mathlib

/-
Verification of the traced-task core of rvarago/playground.

The embedding below translates, definition by definition, the code of
src/cpp/traced_task/main.cpp (and, where a claim cites it, the sibling
variant src/unnamed/part_002).  External collaborators (the backtrace
provider, the crash sink) are modelled as explicit inputs; machine
pointers are modelled as Nat; C++ exceptions become an explicit Exn
payload threaded through Sum; the crash sink is modelled as a log of
records, appended in call order.
-/

namespace my_backtrace

/-- Symbolic description of one stack frame, mirroring
StackFrame::SymbolicInfo in src/cpp/traced_task/main.cpp.  The empty
string models an unset textual field; offset 0 models an unknown
offset, exactly as in the source defaults. -/
structure SymbolicInfo where
  symbol : String
  fileName : String
  offset : Nat
deriving Repr, DecidableEq

/-- One captured frame: an address plus its symbolic description,
mirroring my_backtrace::StackFrame. -/
structure StackFrame where
  address : Nat
  symbolicInfo : SymbolicInfo
deriving Repr, DecidableEq

/-- StackTrace is an ordered list of frames, index 0 nearest the
capture point, as in the source alias. -/
abbrev StackTrace := List StackFrame

/-- Result of a dladdr query for one address: optional raw symbol name,
optional module file name, optional module base address.  A missing
field models the corresponding null pointer. -/
structure Dl_info where
  dli_sname : Option String
  dli_fname : Option String
  dli_fbase : Option Nat
deriving Repr, DecidableEq

/-- The external backtrace provider, the collaborator the capture
routine queries.  frames is the address list the backtrace call yields
in order; symtab models backtrace_symbols (none models allocation
failure, otherwise the textual line for each address); dladdr models
the dladdr query (none models a zero return); demangle models
abi cxa_demangle, where none models a nonzero status together with a
null result pointer, and some models status 0 with the demangled
name. -/
structure Provider where
  frames : List Nat
  symtab : Option (Nat → String)
  dladdr : Nat → Option Dl_info
  demangle : String → Option String

/-- util::ptr_to_string: a null pointer becomes the empty string. -/
def ptr_to_string (p : Option String) : String :=
  match p with
  | none => ""
  | some s => s

/-- Translation of intoSymbolicInfo from src/cpp/traced_task/main.cpp.
The symbol branch follows the ternary of the source literally: when
dli_sname is present and demangling fails (nonzero status, null
demangled pointer) the source stringifies the null demangled pointer,
yielding the empty string; when demangling succeeds the source takes
the raw backtrace text, discarding the demangled name. -/
def intoSymbolicInfo (p : Provider) (address : Nat) (symbol_backtrace : String) :
    SymbolicInfo :=
  match p.dladdr address with
  | none => ⟨"", "", 0⟩
  | some dl_info =>
    let symbol :=
      match dl_info.dli_sname with
      | none => ptr_to_string (some symbol_backtrace)
      | some sname =>
        match p.demangle sname with
        | none => ptr_to_string none
        | some _ => ptr_to_string (some symbol_backtrace)
    let fileName := ptr_to_string dl_info.dli_fname
    let offset :=
      match dl_info.dli_fbase with
      | some base => address - base
      | none => 0
    ⟨symbol, fileName, offset⟩

/-- Translation of the symbol-selection block of CaptureStackTrace in
src/unnamed/part_002: demangling success uses the demangled name,
demangling failure falls back to dli_sname, a missing dli_sname or a
failed dladdr falls back to the textual backtrace line. -/
def captureStackTraceSymbol (p : Provider) (address : Nat)
    (symbol_backtrace : String) : String :=
  match p.dladdr address with
  | none => symbol_backtrace
  | some dl_info =>
    match dl_info.dli_sname with
    | none => symbol_backtrace
    | some sname =>
      match p.demangle sname with
      | some demangled => demangled
      | none => sname

/-- Translation of my_backtrace::current from
src/cpp/traced_task/main.cpp: query up to DEPTH_MAX raw frames
(default 128), return the empty trace when the provider yields no
frames or no symbol table, otherwise resolve every frame from index 2
on, skipping the two leading frames of the capture machinery. -/
def current (p : Provider) (DEPTH_MAX : Nat := 128) : StackTrace :=
  let callstack := p.frames.take DEPTH_MAX
  if callstack.length = 0 then
    []
  else
    match p.symtab with
    | none => []
    | some syms =>
      (callstack.drop 2).map fun address =>
        ⟨address, intoSymbolicInfo p address (syms address)⟩

/-- Rendering of a pointer value, as operator<< renders a void
pointer: a hexadecimal literal.  Any fixed deterministic rendering of
the address suffices for the formatting claims. -/
def addressRepr (a : Nat) : String :=
  "0x" ++ String.mk (Nat.toDigits 16 a)

/-- The body of one iteration of the rendering loop of
my_backtrace::toString: index, address, symbol or the placeholder,
the offset field only when the offset is positive, the module field
only when the file name is nonempty, then a newline. -/
def frameLine (i : Nat) (frame : StackFrame) : String :=
  let head := "#" ++ Nat.repr i ++ ": " ++ addressRepr frame.address ++ " "
  let sym :=
    if frame.symbolicInfo.symbol = "" then "???" else frame.symbolicInfo.symbol
  let off :=
    if 0 < frame.symbolicInfo.offset then " +" ++ Nat.repr frame.symbolicInfo.offset
    else ""
  let fil :=
    if frame.symbolicInfo.fileName = "" then "" else " in " ++ frame.symbolicInfo.fileName
  head ++ sym ++ off ++ fil ++ "\n"

/-- The successive lines the rendering loop emits, one per frame, in
frame order. -/
def toStringLines (stackTrace : StackTrace) : List String :=
  stackTrace.enum.map fun pr => frameLine pr.1 pr.2

/-- Translation of my_backtrace::toString: the concatenation of the
per-frame lines, in order. -/
def toString (stackTrace : StackTrace) : String :=
  String.join (toStringLines stackTrace)

end my_backtrace

/-- Modelled from the spec, for comparison with the source rendering:
the symbol field is the symbol, or the placeholder when the symbol is
unset. -/
def specSymbolField (f : my_backtrace.StackFrame) : String :=
  if f.symbolicInfo.symbol = "" then "???" else f.symbolicInfo.symbol

/-- Modelled from the spec, for comparison with the source rendering:
the offset field is omitted exactly when the offset is zero. -/
def specOffsetField (f : my_backtrace.StackFrame) : String :=
  if f.symbolicInfo.offset = 0 then "" else " +" ++ Nat.repr f.symbolicInfo.offset

/-- Modelled from the spec, for comparison with the source rendering:
the module field appears exactly when the module name is known. -/
def specModuleField (f : my_backtrace.StackFrame) : String :=
  if f.symbolicInfo.fileName = "" then "" else " in " ++ f.symbolicInfo.fileName

/-- Modelled from the spec, for comparison with the source rendering:
one line per frame, holding index, address, symbol or placeholder,
conditional offset field, conditional module field. -/
def specFrameText (i : Nat) (f : my_backtrace.StackFrame) : String :=
  "#" ++ Nat.repr i ++ ": " ++ my_backtrace.addressRepr f.address ++ " " ++
    specSymbolField f ++ specOffsetField f ++ specModuleField f ++ "\n"

/-- Modelled from the spec, for comparison with the source rendering:
the whole trace rendering, frame order preserved. -/
def specTraceText (stackTrace : my_backtrace.StackTrace) : String :=
  String.join (stackTrace.enum.map fun pr => specFrameText pr.1 pr.2)

theorem frameLine_eq_specFrameText (i : Nat) (f : my_backtrace.StackFrame) :
    my_backtrace.frameLine i f = specFrameText i f := by
  unfold my_backtrace.frameLine specFrameText specSymbolField specOffsetField
    specModuleField
  rcases Nat.eq_zero_or_pos f.symbolicInfo.offset with h | h
  · simp [h]
  · simp [h, h.ne']

/-- A C++ exception payload, as far as the reporting path observes it:
the typeid name of its dynamic type, the what message, and whether the
dynamic type derives from std exception (which decides the catch
clause taken inside the reporter). -/
structure Exn where
  typeName : String
  what : String
  isStdException : Bool
deriving Repr, DecidableEq

/-- One record the crash sink received: the arguments of one
RecordException call, together with the StackTrace argument the
reporter itself was handed (from which the text was rendered). -/
structure SinkRecord where
  name : String
  reason : String
  stackTrace : my_backtrace.StackTrace
  traceText : String
deriving Repr, DecidableEq

/-- The exception-type name the reporter passes on: the typeid name
inside the std exception catch clause, the fixed fallback inside the
catch-all clause. -/
def exnName (e : Exn) : String :=
  if e.isStdException then e.typeName else "Unknown Exception"

/-- The reason text the reporter passes on: the what message inside
the std exception catch clause, the fixed fallback inside the
catch-all clause. -/
def exnReason (e : Exn) : String :=
  if e.isStdException then e.what else "Unhandled exception of unknown type"

/-- The record one reportExceptionToFirebase call hands the sink for a
given payload and trace. -/
def mkSinkRecord (e : Exn) (st : my_backtrace.StackTrace) : SinkRecord :=
  ⟨exnName e, exnReason e, st, my_backtrace.toString st⟩

/-- Behaviour of the external crash sink on one RecordException call,
given name, reason and trace text: none models a normal return, some
models the sink itself raising that payload. -/
def SinkBehaviour : Type :=
  String → String → String → Option Exn

/-- The sink the repository ships, firebase crashlytics
RecordException: it only writes to standard output and never
raises. -/
def recordExceptionConsole : SinkBehaviour :=
  fun _ _ _ => none

/-- Translation of reportExceptionToFirebase from
src/cpp/traced_task/main.cpp, parametric in the sink behaviour.  The
guarded block rethrows the payload; the catch clauses select name and
reason and call the sink.  The sink call sits inside the catch
handlers, outside the guarded block, so a payload the sink itself
raises leaves the function: that case is the error result. -/
def reportExceptionToFirebaseWith (sink : SinkBehaviour)
    (exceptionPtr : Option Exn) (stackTrace : my_backtrace.StackTrace) :
    Except Exn (List SinkRecord) :=
  match exceptionPtr with
  | none => Except.ok []
  | some e =>
    let record := mkSinkRecord e stackTrace
    match sink record.name record.reason record.traceText with
    | none => Except.ok [record]
    | some raised => Except.error raised

/-- The records reportExceptionToFirebase appends to the sink log with
the sink the repository ships (which never raises): none for a null
payload, exactly one otherwise. -/
def reportExceptionToFirebase (exceptionPtr : Option Exn)
    (stackTrace : my_backtrace.StackTrace) : List SinkRecord :=
  match exceptionPtr with
  | none => []
  | some e => [mkSinkRecord e stackTrace]

/-- The observable outside world a run of the program threads through:
the stream of traces successive my_backtrace current calls capture
(the provider state at each call site), and the log of records the
crash sink accumulated, in call order. -/
structure World where
  traces : List my_backtrace.StackTrace
  sink : List SinkRecord
deriving Repr, DecidableEq

/-- One call of my_backtrace current at a call site: it yields the
next trace of the stream, or the empty trace when the provider has
nothing left to offer (graceful degradation of the capture). -/
def captureCurrent (w : World) : my_backtrace.StackTrace × World :=
  match w.traces with
  | [] => ([], ⟨[], w.sink⟩)
  | t :: rest => (t, ⟨rest, w.sink⟩)

/-- The control flow a TracedTask coroutine body can exhibit, as the
bodies of src/cpp/traced_task/main.cpp use it: produce a value
(co_return), raise a payload (throw), await another task created in
place and continue with its value (co_await), or run a sub-body under
a catch clause that matches the arriving payload (try catch). -/
inductive Body (T : Type) : Type where
  | ret : T → Body T
  | raiseExn : Exn → Body T
  | awaitTask : Body T → (T → Body T) → Body T
  | tryCatch : Body T → (Exn → Body T) → Body T

/-- The promise of a coroutine that reached its final suspend point:
the outcome slot (the variant of exception payload or Success value)
and the trace captured at initial suspend, that is at construction. -/
structure Promise (T : Type) where
  result : Sum Exn T
  stackTrace : my_backtrace.StackTrace
deriving Repr, DecidableEq

/-- A TracedTask value: either a null handle (default constructed or
moved from) or a handle owning a promise.  Every promise a creation in
this program produces sits at its final suspend point, because every
body runs eagerly to completion inside creation (initial suspend never
suspends and no body of the program ever actually suspends at an
await, the awaited task being already complete). -/
abbrev TracedTask (T : Type) : Type :=
  Option (Promise T)

/-- The payload of the runtime error result throws when the task is
not completed. -/
def notCompletedExn : Exn :=
  ⟨"St13runtime_error", "TracedTask not completed", true⟩

/-- Translation of TracedTask is_ready: the handle is nonnull and
done.  Every owned promise of the model is done (see TracedTask). -/
def TracedTask.is_ready {T : Type} : TracedTask T → Bool
  | none => false
  | some _ => true

/-- Translation of TracedTask result: a task that is not ready throws
the not-completed runtime error; otherwise the stored outcome is
either returned or its payload rethrown. -/
def TracedTask.result {T : Type} : TracedTask T → Sum Exn T
  | none => Sum.inl notCompletedExn
  | some p => p.result

/-- The same call of result, with the world threaded through: result
is a const member that performs no reporting and no mutation, so the
world passes unchanged. -/
def TracedTask.resultOp {T : Type} (t : TracedTask T) (w : World) :
    (Sum Exn T) × World :=
  (TracedTask.result t, w)

/-- Translation of TracedTask run: resume only a nonnull handle that
is not done.  A null handle fails the guard; every owned promise of
the model is done; so run changes nothing in either case. -/
def TracedTask.run {T : Type} (t : TracedTask T) (w : World) :
    TracedTask T × World :=
  match t with
  | none => (none, w)
  | some p => (some p, w)

/-- Translation of the move constructor (and equally of move
assignment for the moved-from side): the destination takes the handle,
the source is left with a null handle. -/
def TracedTask.moveFrom {T : Type} (t : TracedTask T) :
    TracedTask T × TracedTask T :=
  (t, none)

/-- The records the final awaiter of final_suspend appends: it calls
reportExceptionToFirebase exactly when the outcome slot holds the
exception alternative, with the trace the promise captured at
construction. -/
def finalSuspendReport {T : Type} (res : Sum Exn T)
    (st : my_backtrace.StackTrace) : List SinkRecord :=
  match res with
  | Sum.inl e => reportExceptionToFirebase (some e) st
  | Sum.inr _ => []

/-- Execution of a coroutine body from its first instruction to its
outcome, threading the world.  The awaitTask case is the creation of
the inner task followed by the await protocol of the source: creation
captures the trace of the inner task at its initial suspend, runs the
inner body eagerly, and the final awaiter of the inner task reports
its unhandled payload; the awaiter of co_await then sees a ready task
and await_resume calls result, rethrowing a stored payload into this
body or handing the value to the continuation. -/
def runBody {T : Type} : Body T → World → (Sum Exn T) × World
  | Body.ret v, w => (Sum.inr v, w)
  | Body.raiseExn e, w => (Sum.inl e, w)
  | Body.awaitTask inner k, w =>
    let captured := captureCurrent w
    let innerRun := runBody inner captured.2
    let afterReport : World :=
      ⟨innerRun.2.traces,
       innerRun.2.sink ++ finalSuspendReport innerRun.1 captured.1⟩
    let innerTask : TracedTask T := some ⟨innerRun.1, captured.1⟩
    match TracedTask.result innerTask with
    | Sum.inl e => (Sum.inl e, afterReport)
    | Sum.inr v => runBody (k v) afterReport
  | Body.tryCatch b handler, w =>
    let r := runBody b w
    match r.1 with
    | Sum.inl e => runBody (handler e) r.2
    | Sum.inr v => (Sum.inr v, r.2)

/-- Creation of a TracedTask by calling a coroutine function: the
promise captures the trace at initial suspend, the body runs eagerly
to its outcome, and the final awaiter reports an unhandled payload
with the trace captured at construction.  The returned task owns a
promise at its final suspend point. -/
def createTask {T : Type} (body : Body T) (w : World) :
    TracedTask T × World :=
  let captured := captureCurrent w
  let r := runBody body captured.2
  (some ⟨r.1, captured.1⟩,
   ⟨r.2.traces, r.2.sink ++ finalSuspendReport r.1 captured.1⟩)

/-- The payload thrown by the third level body. -/
def exnThirdLevel : Exn :=
  ⟨"St13runtime_error", "Exception from third level task", true⟩

/-- Translation of thirdLevelTask: the body throws a runtime error and
its co_return is never reached. -/
def thirdLevelTask : Body Int :=
  Body.raiseExn exnThirdLevel

/-- Translation of secondLevelTask: await the third level task, then
return twice its value (never reached). -/
def secondLevelTask : Body Int :=
  Body.awaitTask thirdLevelTask fun r => Body.ret (r * 2)

/-- Translation of topLevelTask: await the second level task without
catching, then return 1 (never reached). -/
def topLevelTask : Body Int :=
  Body.awaitTask secondLevelTask fun _ => Body.ret 1

/-- Translation of handledExceptionTask: await the second level task
under a catch clause that handles the payload, then return 1 on both
paths. -/
def handledExceptionTask : Body Int :=
  Body.tryCatch (Body.awaitTask secondLevelTask fun _ => Body.ret 1)
    fun _ => Body.ret 1

/-- A body that never awaits another task: no awaitTask node anywhere,
through every continuation. -/
def NoAwait {T : Type} : Body T → Prop
  | Body.ret _ => True
  | Body.raiseExn _ => True
  | Body.awaitTask _ _ => False
  | Body.tryCatch b handler => NoAwait b ∧ ∀ e, NoAwait (handler e)

theorem runBody_world_of_noAwait {T : Type} (b : Body T) :
    ∀ w : World, NoAwait b → (runBody b w).2 = w := by
  induction b with
  | ret v => intro w _; rfl
  | raiseExn e => intro w _; rfl
  | awaitTask inner k ih1 ih2 => intro w h; exact absurd h (by simp [NoAwait])
  | tryCatch b handler ihb ihh =>
    intro w h
    obtain ⟨hb, hh⟩ := h
    simp only [runBody]
    cases hr : (runBody b w).1 with
    | inl e =>
      simp only [hr]
      rw [ihb w hb]
      exact ihh e w (hh e)
    | inr v =>
      simp only [hr]
      exact ihb w hb

theorem captureCurrent_sink (w : World) : (captureCurrent w).2.sink = w.sink := by
  cases w with
  | mk traces sink => cases traces <;> rfl

/-- Claim C1: for the three-level chain (topLevelTask awaits
secondLevelTask awaits thirdLevelTask), where only the innermost body
raises and no level catches, the sink receives exactly three records,
one per task level, in inner-to-outer completion order, and each
record carries the trace captured at that level at its own creation
(the creation order being top, second, third), not the trace of the
original throw site. -/
theorem three_level_chain_reports_once_per_level
    (tTop tSecond tThird : my_backtrace.StackTrace)
    (rest : List my_backtrace.StackTrace) (s0 : List SinkRecord) :
    createTask topLevelTask ⟨tTop :: tSecond :: tThird :: rest, s0⟩ =
      (some ⟨Sum.inl exnThirdLevel, tTop⟩,
       ⟨rest, s0 ++ [mkSinkRecord exnThirdLevel tThird,
                     mkSinkRecord exnThirdLevel tSecond,
                     mkSinkRecord exnThirdLevel tTop]⟩) := by
  simp [createTask, runBody, topLevelTask, secondLevelTask, thirdLevelTask,
    captureCurrent, finalSuspendReport, reportExceptionToFirebase,
    TracedTask.result]

/-- Claim C2: for every task instance, creation captures the trace
first, runs the body, and appends the final-suspend records of this
instance after whatever the body itself logged; those records are
exactly one when the own body finished with an uncaught payload and
none when it finished with a value, each carrying the trace captured
at construction; and once terminal, run changes nothing further, so
the sink is never touched again on behalf of this instance. -/
theorem task_reports_at_most_once_with_creation_trace
    {T : Type} (body : Body T) (w : World) :
    createTask body w =
      (some ⟨(runBody body (captureCurrent w).2).1, (captureCurrent w).1⟩,
       ⟨(runBody body (captureCurrent w).2).2.traces,
        (runBody body (captureCurrent w).2).2.sink ++
          finalSuspendReport (runBody body (captureCurrent w).2).1
            (captureCurrent w).1⟩)
    ∧ (∀ (e : Exn) (st : my_backtrace.StackTrace),
        finalSuspendReport (Sum.inl e : Sum Exn T) st = [mkSinkRecord e st])
    ∧ (∀ (v : T) (st : my_backtrace.StackTrace),
        finalSuspendReport (Sum.inr v : Sum Exn T) st = [])
    ∧ (∀ (e : Exn) (st : my_backtrace.StackTrace),
        (mkSinkRecord e st).stackTrace = st)
    ∧ (∀ w2 : World,
        TracedTask.run (createTask body w).1 w2 = ((createTask body w).1, w2)) := by
  exact ⟨rfl, fun e st => rfl, fun v st => rfl, fun e st => rfl, fun w2 => rfl⟩

/-- Claim C4: result called on a task that is not ready fails with the
distinct not-completed payload, leaves the world (and so the sink)
unchanged, and reports nothing. -/
theorem result_before_ready_fails_without_report
    {T : Type} (t : TracedTask T) (w : World)
    (h : TracedTask.is_ready t = false) :
    TracedTask.result t = Sum.inl notCompletedExn
    ∧ TracedTask.resultOp t w = (Sum.inl notCompletedExn, w)
    ∧ notCompletedExn.what = "TracedTask not completed" := by
  cases t with
  | none => exact ⟨rfl, rfl, rfl⟩
  | some p => simp [TracedTask.is_ready] at h

/-- Witness for claim C4 at the null-handle task. -/
theorem result_before_ready_fails_without_report_witness :
    TracedTask.is_ready (none : TracedTask Int) = false
    ∧ (TracedTask.result (none : TracedTask Int) = Sum.inl notCompletedExn
       ∧ TracedTask.resultOp (none : TracedTask Int) ⟨[], []⟩ =
           (Sum.inl notCompletedExn, ⟨[], []⟩)
       ∧ notCompletedExn.what = "TracedTask not completed") :=
  ⟨rfl, result_before_ready_fails_without_report (none : TracedTask Int) ⟨[], []⟩ rfl⟩

/-- Claim C10: a moved-from task holds a null handle; on it, is_ready
is false, run is a silent no-op, and result fails with the same
not-completed payload as any incomplete task; every operation is a
total function of the model, with no undefined behaviour. -/
theorem moved_from_task_operations_safe
    {T : Type} (t : TracedTask T) (w : World) :
    (TracedTask.moveFrom t).1 = t
    ∧ (TracedTask.moveFrom t).2 = (none : TracedTask T)
    ∧ TracedTask.is_ready (TracedTask.moveFrom t).2 = false
    ∧ TracedTask.run (TracedTask.moveFrom t).2 w = ((TracedTask.moveFrom t).2, w)
    ∧ TracedTask.result (TracedTask.moveFrom t).2 = Sum.inl notCompletedExn :=
  ⟨rfl, rfl, rfl, rfl, rfl⟩

/-- Claim C3: an outer task whose body awaits an inner task that fails
with payload e and catches the re-raise locally, with the handler
finishing with a value, completes successfully with its own
construction trace; the final world is exactly the world the handler
left, whose sink holds the single record of the inner task (with the
trace the inner task captured at its own creation) and nothing
appended for the outer level. -/
theorem outer_catch_suppresses_outer_report
    {T : Type} (inner : Body T) (k : T → Body T) (handler : Exn → Body T)
    (w : World) (e : Exn) (v : T)
    (tOut tIn : my_backtrace.StackTrace) (w1 w2 : World)
    (wInner : (Sum Exn T) × World)
    (hCap1 : captureCurrent w = (tOut, w1))
    (hCap2 : captureCurrent w1 = (tIn, w2))
    (hInner : runBody inner w2 = wInner)
    (hFail : wInner.1 = Sum.inl e)
    (hHandler :
      (runBody (handler e)
        ⟨wInner.2.traces, wInner.2.sink ++ [mkSinkRecord e tIn]⟩).1 = Sum.inr v) :
    createTask (Body.tryCatch (Body.awaitTask inner k) handler) w =
      (some ⟨Sum.inr v, tOut⟩,
       (runBody (handler e)
        ⟨wInner.2.traces, wInner.2.sink ++ [mkSinkRecord e tIn]⟩).2)
    ∧ TracedTask.is_ready
        (createTask (Body.tryCatch (Body.awaitTask inner k) handler) w).1 = true
    ∧ TracedTask.result
        (createTask (Body.tryCatch (Body.awaitTask inner k) handler) w).1 =
          Sum.inr v := by
  have hAwait : runBody (Body.awaitTask inner k) w1 =
      (Sum.inl e, ⟨wInner.2.traces, wInner.2.sink ++ [mkSinkRecord e tIn]⟩) := by
    simp only [runBody, hCap2, hInner, TracedTask.result, hFail,
      finalSuspendReport, reportExceptionToFirebase]
  have hCreate : createTask (Body.tryCatch (Body.awaitTask inner k) handler) w =
      (some ⟨Sum.inr v, tOut⟩,
       (runBody (handler e)
        ⟨wInner.2.traces, wInner.2.sink ++ [mkSinkRecord e tIn]⟩).2) := by
    simp only [createTask, runBody, hCap1, hAwait]
    cases hrh : runBody (handler e)
        ⟨wInner.2.traces, wInner.2.sink ++ [mkSinkRecord e tIn]⟩ with
    | mk rres rw =>
      have : rres = Sum.inr v := by
        have := hHandler
        rw [hrh] at this
        exact this
      subst this
      simp [finalSuspendReport]
  refine ⟨hCreate, ?_, ?_⟩
  · rw [hCreate]; rfl
  · rw [hCreate]; rfl

/-- Witness for claim C3: a concrete outer body catching the failure
of a directly awaited inner body that raises. -/
theorem outer_catch_suppresses_outer_report_witness :
    captureCurrent (⟨[], []⟩ : World) = ([], ⟨[], []⟩)
    ∧ captureCurrent (⟨[], []⟩ : World) = ([], ⟨[], []⟩)
    ∧ runBody (Body.raiseExn exnThirdLevel : Body Int) ⟨[], []⟩ =
        (Sum.inl exnThirdLevel, ⟨[], []⟩)
    ∧ ((Sum.inl exnThirdLevel : Sum Exn Int), (⟨[], []⟩ : World)).1 =
        (Sum.inl exnThirdLevel : Sum Exn Int)
    ∧ (runBody ((fun _ => Body.ret 7 : Exn → Body Int) exnThirdLevel)
        ⟨[], [] ++ [mkSinkRecord exnThirdLevel []]⟩).1 = Sum.inr 7
    ∧ (createTask
        (Body.tryCatch (Body.awaitTask (Body.raiseExn exnThirdLevel)
          (fun _ => Body.ret 1)) (fun _ => Body.ret 7)) ⟨[], []⟩ =
        (some ⟨Sum.inr 7, []⟩,
         (runBody ((fun _ => Body.ret 7 : Exn → Body Int) exnThirdLevel)
          ⟨[], [] ++ [mkSinkRecord exnThirdLevel []]⟩).2)
       ∧ TracedTask.is_ready
          (createTask (Body.tryCatch (Body.awaitTask (Body.raiseExn exnThirdLevel)
            (fun _ => Body.ret 1)) (fun _ => Body.ret 7)) ⟨[], []⟩).1 = true
       ∧ TracedTask.result
          (createTask (Body.tryCatch (Body.awaitTask (Body.raiseExn exnThirdLevel)
            (fun _ => Body.ret 1)) (fun _ => Body.ret 7)) ⟨[], []⟩).1 = Sum.inr 7) :=
  ⟨rfl, rfl, rfl, rfl, rfl,
   outer_catch_suppresses_outer_report (Body.raiseExn exnThirdLevel)
     (fun _ => Body.ret 1) (fun _ => Body.ret 7) ⟨[], []⟩ exnThirdLevel 7
     [] [] ⟨[], []⟩ ⟨[], []⟩ (Sum.inl exnThirdLevel, ⟨[], []⟩)
     rfl rfl rfl rfl rfl⟩

/-- A payload a misbehaving sink raises, for the counterexample to
claim C5. -/
def sinkFailureExn : Exn :=
  ⟨"St13runtime_error", "sink malfunction", true⟩

/-- A sink behaviour that raises on every call. -/
def raisingSink : SinkBehaviour :=
  fun _ _ _ => some sinkFailureExn

/-- Counterexample to claim C5 as stated: the sink call sits inside
the catch handlers, outside the guarded block of
reportExceptionToFirebase, so for a sink behaviour that raises the
report operation raises that payload to its caller instead of
swallowing it. -/
theorem report_raises_when_sink_raises :
    reportExceptionToFirebaseWith raisingSink (some exnThirdLevel) [] =
      Except.error sinkFailureExn
    ∧ ∀ recs : List SinkRecord,
        reportExceptionToFirebaseWith raisingSink (some exnThirdLevel) [] ≠
          Except.ok recs :=
  ⟨rfl, fun recs h => by
    simp [reportExceptionToFirebaseWith, raisingSink, mkSinkRecord] at h⟩

/-- Claim C5 amended: the report operation never raises provided the
sink itself does not raise; in particular the sink the repository
ships never raises, so in the program the report operation never
raises and never perturbs failure propagation.  A failure raised by
the sink itself, however, would propagate to the caller of report. -/
theorem report_never_raises_for_nonraising_sink
    (sink : SinkBehaviour)
    (hs : ∀ n r t, sink n r t = none)
    (exceptionPtr : Option Exn) (st : my_backtrace.StackTrace) :
    reportExceptionToFirebaseWith sink exceptionPtr st =
      Except.ok (reportExceptionToFirebase exceptionPtr st) := by
  cases exceptionPtr with
  | none => rfl
  | some e =>
    simp only [reportExceptionToFirebaseWith, reportExceptionToFirebase, hs]

/-- Witness for the amended claim C5, at the console sink of the
repository. -/
theorem report_never_raises_for_nonraising_sink_witness :
    (∀ n r t, recordExceptionConsole n r t = none)
    ∧ reportExceptionToFirebaseWith recordExceptionConsole (some exnThirdLevel) [] =
        Except.ok (reportExceptionToFirebase (some exnThirdLevel) []) :=
  ⟨fun _ _ _ => rfl,
   report_never_raises_for_nonraising_sink recordExceptionConsole
     (fun _ _ _ => rfl) (some exnThirdLevel) []⟩

/-- A provider whose dladdr query resolves the raw name and whose
demangler succeeds, for evaluating claim C6 on the code. -/
def demangleOkProvider : my_backtrace.Provider :=
  ⟨[], none, fun _ => some ⟨some "_Z3barv", some "a.out", some 0⟩,
   fun _ => some "bar()"⟩

/-- The same provider with a failing demangler. -/
def demangleFailProvider : my_backtrace.Provider :=
  ⟨[], none, fun _ => some ⟨some "_Z3barv", some "a.out", some 0⟩,
   fun _ => none⟩

/-- Claim C6, evaluated on the code at the failing input: in
src/cpp/traced_task/main.cpp the ternary on the demangling status is
inverted, so on demangling success intoSymbolicInfo discards the
demangled name and keeps the raw backtrace text, and on demangling
failure it stringifies the null demangled pointer and leaves the
symbol unset even though the raw symbol is present; the sibling
variant src/unnamed/part_002 implements the behaviour the claim
states, using the demangled name on success and falling back to the
raw symbol on failure. -/
theorem intoSymbolicInfo_discards_demangled_name :
    (my_backtrace.intoSymbolicInfo demangleOkProvider 7 "raw text").symbol =
      "raw text"
    ∧ (my_backtrace.intoSymbolicInfo demangleOkProvider 7 "raw text").symbol ≠
        "bar()"
    ∧ my_backtrace.captureStackTraceSymbol demangleOkProvider 7 "raw text" =
        "bar()"
    ∧ (my_backtrace.intoSymbolicInfo demangleFailProvider 7 "raw text").symbol = ""
    ∧ my_backtrace.captureStackTraceSymbol demangleFailProvider 7 "raw text" =
        "_Z3barv" := by
  refine ⟨rfl, ?_, rfl, rfl, rfl⟩
  decide

/-- Claim C7: a task whose body never awaits anything and finishes
with a value is ready immediately after creation, with no further run
call, result then returns exactly that value, and the sink is
untouched. -/
theorem no_await_body_ready_after_create
    {T : Type} (body : Body T) (v : T) (w : World)
    (hA : NoAwait body)
    (hv : (runBody body (captureCurrent w).2).1 = Sum.inr v) :
    TracedTask.is_ready (createTask body w).1 = true
    ∧ TracedTask.result (createTask body w).1 = Sum.inr v
    ∧ ((createTask body w).2).sink = w.sink := by
  refine ⟨rfl, ?_, ?_⟩
  · show (runBody body (captureCurrent w).2).1 = Sum.inr v
    exact hv
  · show (runBody body (captureCurrent w).2).2.sink ++
      finalSuspendReport (runBody body (captureCurrent w).2).1
        (captureCurrent w).1 = w.sink
    rw [hv]
    rw [runBody_world_of_noAwait body (captureCurrent w).2 hA]
    simp [finalSuspendReport, captureCurrent_sink]

/-- Witness for claim C7 at a body that only returns 5. -/
theorem no_await_body_ready_after_create_witness :
    NoAwait (Body.ret (5 : Int))
    ∧ (runBody (Body.ret (5 : Int)) (captureCurrent ⟨[], []⟩).2).1 = Sum.inr 5
    ∧ (TracedTask.is_ready (createTask (Body.ret (5 : Int)) ⟨[], []⟩).1 = true
       ∧ TracedTask.result (createTask (Body.ret (5 : Int)) ⟨[], []⟩).1 = Sum.inr 5
       ∧ ((createTask (Body.ret (5 : Int)) ⟨[], []⟩).2).sink = ([] : List SinkRecord)) :=
  ⟨trivial, rfl,
   no_await_body_ready_after_create (Body.ret (5 : Int)) 5 ⟨[], []⟩ trivial rfl⟩

theorem current_eq_of_symtab (fs : List Nat) (syms : Nat → String)
    (dl : Nat → Option my_backtrace.Dl_info) (dm : String → Option String)
    (d : Nat) :
    my_backtrace.current ⟨fs, some syms, dl, dm⟩ d =
      ((fs.take d).drop 2).map fun address =>
        ⟨address,
         my_backtrace.intoSymbolicInfo ⟨fs, some syms, dl, dm⟩ address
           (syms address)⟩ := by
  by_cases h : (fs.take d).length = 0
  · rw [List.length_eq_zero] at h
    simp only [my_backtrace.current, h, List.length_nil, if_pos]
    rfl
  · simp only [my_backtrace.current]
    rw [if_neg h]

/-- Claim C8: the capture skips exactly the two leading frames of the
capture machinery (the addresses of the result are the raw frames,
truncated to DEPTH_MAX, with the first two dropped), examines at most
DEPTH_MAX frames, whose default is 128; and when the provider yields
no frames, or no symbol table, the capture returns the empty trace
instead of failing. -/
theorem current_skips_two_bounds_depth_degrades_gracefully
    (d : Nat) (fs : List Nat)
    (syms : Nat → String) (dl : Nat → Option my_backtrace.Dl_info)
    (dm : String → Option String) (st : Option (Nat → String)) :
    (my_backtrace.current ⟨fs, some syms, dl, dm⟩ d).map
        my_backtrace.StackFrame.address = (fs.take d).drop 2
    ∧ (my_backtrace.current ⟨fs, st, dl, dm⟩ d).length + 2 ≤ d + 2
    ∧ my_backtrace.current ⟨[], st, dl, dm⟩ d = []
    ∧ my_backtrace.current ⟨fs, none, dl, dm⟩ d = []
    ∧ my_backtrace.current ⟨fs, st, dl, dm⟩ =
        my_backtrace.current ⟨fs, st, dl, dm⟩ 128 := by
  refine ⟨?_, ?_, ?_, ?_, rfl⟩
  · rw [current_eq_of_symtab, List.map_map]
    have hcomp : (my_backtrace.StackFrame.address ∘ fun address =>
        (⟨address,
          my_backtrace.intoSymbolicInfo ⟨fs, some syms, dl, dm⟩ address
            (syms address)⟩ : my_backtrace.StackFrame)) = id := rfl
    rw [hcomp, List.map_id]
  · cases st with
    | none =>
      have : my_backtrace.current ⟨fs, none, dl, dm⟩ d = [] := by
        by_cases h : (fs.take d).length = 0
        · simp only [my_backtrace.current]
          rw [if_pos h]
        · simp only [my_backtrace.current]
          rw [if_neg h]
      rw [this]
      simp only [List.length_nil]
      omega
    | some syms2 =>
      rw [current_eq_of_symtab, List.length_map, List.length_drop,
        List.length_take]
      omega
  · cases st with
    | none => simp [my_backtrace.current]
    | some syms2 =>
      rw [current_eq_of_symtab]
      simp
  · by_cases h : (fs.take d).length = 0
    · simp only [my_backtrace.current]
      rw [if_pos h]
    · simp only [my_backtrace.current]
      rw [if_neg h]

/-- Claim C9: the rendering of a trace is a pure function of the
trace, hence deterministic; it agrees with the rendering the spec
describes (index, address, symbol or placeholder, offset field exactly
when the offset is positive, module field exactly when the module name
is nonempty, frame order preserved), and it emits exactly one line per
frame of the trace. -/
theorem toString_matches_spec_rendering (st : my_backtrace.StackTrace) :
    my_backtrace.toString st = specTraceText st
    ∧ (my_backtrace.toStringLines st).length = st.length := by
  constructor
  · simp only [my_backtrace.toString, my_backtrace.toStringLines, specTraceText,
      frameLine_eq_specFrameText]
  · simp [my_backtrace.toStringLines]
